import Mathlib

/-!
# Verification of the stock pipeline's bucket-aggregation and bucket-matching logic

A shallow embedding of the tabular transforms in `src/`:

* `add_relative_strike.py` — relative-strike enrichment,
* `add_max_tenor.py` — per-strike windowed maximum,
* `aggregate_strike_buckets.py` — strike-bucket aggregation,
* `add_fair_value_from_buckets.py` — bucket matching / fair-value assignment,
* `basket_portfolio_add_fair_value_from_buckets.py` — the basket variant.

CSV cells are modelled by `Cell` (missing / string / numeric); numbers are
rationals, which is exact on every value the scripts manipulate.  Pandas
NaN-propagation is modelled with `Option ℚ` (`none` = NaN) and, where the
scripts can produce IEEE infinities (division by a zero spot price), with the
dedicated type `PVal`.  Fallible Python code (un-caught `ValueError` from
`float(...)`) is modelled with `Except`.  Python string operations are
modelled on `List Char` so that every definition evaluates by kernel
reduction.
-/

namespace Stock

/-- A CSV cell as pandas presents it to the scripts: missing (NaN), a string,
or a number. -/
inductive Cell where
  | na : Cell
  | str (s : String) : Cell
  | num (q : ℚ) : Cell
deriving DecidableEq, Repr

/-- `s.strip()`: drop whitespace from both ends. -/
def trimChars (cs : List Char) : List Char :=
  ((cs.dropWhile Char.isWhitespace).reverse.dropWhile Char.isWhitespace).reverse

/-- `s.replace(c, '')` for a single-character pattern. -/
def removeChar (c : Char) (cs : List Char) : List Char :=
  cs.filter (fun d => d ≠ c)

/-- `s.replace(a, b)` for single-character pattern and replacement. -/
def mapChar (a b : Char) (cs : List Char) : List Char :=
  cs.map (fun c => if c = a then b else c)

/-- Value of a list of decimal digit characters, most significant first. -/
def digitsToNat (cs : List Char) : ℕ :=
  cs.foldl (fun acc c => 10 * acc + (c.toNat - 48)) 0

/-- Model of Python `float(s)` on finite decimal literals: optional
whitespace, optional sign, digits with an optional single `.`, optional
decimal exponent.  `none` models the `ValueError` raised on anything else.
(The special literals `inf`/`nan` never occur in this pipeline's data and are
not modelled.) -/
def pythonFloatChars (s : List Char) : Option ℚ :=
  let cs0 := trimChars s
  let sgnCs : ℚ × List Char :=
    match cs0 with
    | '+' :: rest => (1, rest)
    | '-' :: rest => (-1, rest)
    | rest => (1, rest)
  let p1 := sgnCs.2.span Char.isDigit
  let p2 :=
    match p1.2 with
    | '.' :: rest => rest.span Char.isDigit
    | rest => (([] : List Char), rest)
  if p1.1.isEmpty && p2.1.isEmpty then none
  else
    let mant : ℚ :=
      sgnCs.1 * ((digitsToNat p1.1 : ℚ) + (digitsToNat p2.1 : ℚ) / (10 : ℚ) ^ p2.1.length)
    match p2.2 with
    | [] => some mant
    | 'e' :: rest =>
        let esgnCs : ℤ × List Char :=
          match rest with
          | '+' :: r => (1, r)
          | '-' :: r => (-1, r)
          | r => (1, r)
        let p3 := esgnCs.2.span Char.isDigit
        if p3.1.isEmpty || !p3.2.isEmpty then none
        else some (mant * (10 : ℚ) ^ (esgnCs.1 * (digitsToNat p3.1 : ℤ)))
    | 'E' :: rest =>
        let esgnCs : ℤ × List Char :=
          match rest with
          | '+' :: r => (1, r)
          | '-' :: r => (-1, r)
          | r => (1, r)
        let p3 := esgnCs.2.span Char.isDigit
        if p3.1.isEmpty || !p3.2.isEmpty then none
        else some (mant * (10 : ℚ) ^ (esgnCs.1 * (digitsToNat p3.1 : ℤ)))
    | _ => none

/-- Python `float(s)` on a string. -/
def pythonFloat (s : String) : Option ℚ :=
  pythonFloatChars s.data

/-- Model of `pd.to_numeric(col, errors="coerce")` on one cell: numbers pass
through, parsable strings are parsed, anything else becomes NaN. -/
def cellToNumeric (c : Cell) : Option ℚ :=
  match c with
  | .na => none
  | .num q => some q
  | .str s => pythonFloat s

instance {ε α : Type} [DecidableEq ε] [DecidableEq α] : DecidableEq (Except ε α) := fun a b =>
  match a, b with
  | .ok x, .ok y =>
      if h : x = y then .isTrue (by rw [h]) else .isFalse (by simp [h])
  | .error x, .error y =>
      if h : x = y then .isTrue (by rw [h]) else .isFalse (by simp [h])
  | .ok _, .error _ => .isFalse (by simp)
  | .error _, .ok _ => .isFalse (by simp)

/-! ## Bucket matcher / fair-value assigner (`add_fair_value_from_buckets.py`)

The per-`(run_date, ticker)` summary cache is a pure memoisation of
`load_summary_for` and does not change the value computed for any row, so the
embedding works directly with the summary file contents. -/

/-- One row of a ticker's `<TICKER>_strike_buckets_summary.csv` after the
`pd.to_numeric(..., errors="coerce")` coercions in `load_summary_for`
(`none` = NaN). -/
structure SummaryRow where
  lower : Option ℚ
  upper : Option ℚ
  max_tenor_for_strike : Option ℚ
deriving DecidableEq, Repr

/-- One raw row of a summary CSV, before numeric coercion. -/
structure RawSummaryRow where
  lower : Cell
  upper : Cell
  max_tenor_for_strike : Cell
deriving DecidableEq, Repr

/-- The `pd.to_numeric(..., errors="coerce")` calls applied to the three
required columns in `load_summary_for`. -/
def coerceSummaryRow (r : RawSummaryRow) : SummaryRow :=
  ⟨cellToNumeric r.lower, cellToNumeric r.upper, cellToNumeric r.max_tenor_for_strike⟩

/-- A ticker's summary file as found on disk: absent, present but missing one
of the required columns `lower`/`upper`/`max_tenor_for_strike`, or a table of
rows in file order. -/
inductive SummaryFile where
  | missing : SummaryFile
  | malformed : SummaryFile
  | table (rows : List RawSummaryRow) : SummaryFile
deriving DecidableEq, Repr

/-- `load_summary_for` (`add_fair_value_from_buckets.py:36`): returns `None`
when the file is absent or a required column is missing, otherwise the rows
with the three required columns coerced to numeric. -/
def load_summary_for : SummaryFile → Option (List SummaryRow)
  | .missing => none
  | .malformed => none
  | .table rows => some (rows.map coerceSummaryRow)

/-- `parse_relative_strike` (`add_fair_value_from_buckets.py:19`): `None` for
NaN; strings are stripped, `%` and spaces removed, `,` turned into `.`, then
passed to `float(...)` — which raises `ValueError` (modelled by `.error ()`)
when the cleaned string is not a numeric literal; numbers are cast. -/
def parse_relative_strike (value : Cell) : Except Unit (Option ℚ) :=
  match value with
  | .na => .ok none
  | .str s =>
      match pythonFloatChars (mapChar ',' '.' (removeChar ' ' (removeChar '%' (trimChars s.data)))) with
      | some q => .ok (some q)
      | none => .error ()
  | .num q => .ok (some q)

/-- The pandas mask `(summary_df["lower"] <= rel) & (summary_df["upper"] > rel)`
on one row (`add_fair_value_from_buckets.py:281`, and identically
`basket_portfolio_add_fair_value_from_buckets.py:139`); comparisons with NaN
are false. -/
def bucketMatches (rel : ℚ) (r : SummaryRow) : Bool :=
  (match r.lower with
    | some l => decide (l ≤ rel)
    | none => false) &&
  (match r.upper with
    | some u => decide (u > rel)
    | none => false)

/-- `match = summary_df[mask]`: the matching rows, in file order. -/
def matchRows (rows : List SummaryRow) (rel : ℚ) : List SummaryRow :=
  rows.filter (bucketMatches rel)

/-- `compute_fair_value` (`add_fair_value_from_buckets.py:252`): NaN when the
summary is unavailable, the relative strike is NaN, or no bucket matches;
otherwise `match["max_tenor_for_strike"].iloc[0]`, the first matching row's
statistic.  A `ValueError` from `parse_relative_strike` propagates
(nothing catches it). -/
def compute_fair_value (file : SummaryFile) (relCell : Cell) : Except Unit (Option ℚ) :=
  match load_summary_for file with
  | none => .ok none
  | some rows =>
      match parse_relative_strike relCell with
      | .error e => .error e
      | .ok none => .ok none
      | .ok (some rel) =>
          match matchRows rows rel with
          | [] => .ok none
          | m :: _ => .ok m.max_tenor_for_strike

/-- The spec's wording of the matching rule, stated independently of the
code: a row is selected exactly when its bounds are numeric and
`lower <= rel < upper`. -/
def specBucketSelects (rel : ℚ) (r : SummaryRow) : Prop :=
  ∃ l u, r.lower = some l ∧ r.upper = some u ∧ l ≤ rel ∧ rel < u

/-! ## Shared list helpers -/

/-- Pandas `Series.max()` over the non-NaN values already extracted into a
plain list: `none` on an empty list (pandas NaN), else the maximum. -/
def listMax : List ℚ → Option ℚ
  | [] => none
  | x :: xs =>
      match listMax xs with
      | none => some x
      | some m => some (max x m)

/-- Python `s.split(sep)` for a one-character separator. -/
def splitOnChar (sep : Char) : List Char → List (List Char)
  | [] => [[]]
  | c :: rest =>
      let r := splitOnChar sep rest
      if c = sep then [] :: r
      else
        match r with
        | [] => [[c]]
        | h :: t => (c :: h) :: t

/-- Python `s.split(sep, 1)` for a one-character separator: `none` when the
separator does not occur (the `if sep not in s` guard), else the part before
the first occurrence and everything after it. -/
def splitFirst (sep : Char) : List Char → Option (List Char × List Char)
  | [] => none
  | c :: rest =>
      if c = sep then some ([], rest)
      else
        match splitFirst sep rest with
        | none => none
        | some p => some (c :: p.1, p.2)

/-! ## Bucket aggregator (`aggregate_strike_buckets.py`) -/

namespace aggregate_strike_buckets

/-- One configured strike bucket, after the `float(b["lower"])` /
`float(b["upper"])` conversions. -/
structure Bucket where
  lower : ℚ
  upper : ℚ
deriving DecidableEq, Repr

/-- One row of `<ticker>_options_all_expirations_filtered.csv`, restricted to
the two columns the script uses. -/
structure AggRow where
  relative_strike : Cell
  max_tenor_for_strike : Cell
deriving DecidableEq, Repr

/-- A ticker's input file: which of the two required columns are present, and
the rows in file order. -/
structure AggFile where
  hasRelativeStrikeCol : Bool
  hasMaxTenorCol : Bool
  rows : List AggRow
deriving DecidableEq, Repr

/-- A ticker's slice of the filesystem: whether `outdir/<ticker>` exists and
the input file, if any. -/
structure AggTickerFS where
  dirExists : Bool
  file : Option AggFile
deriving DecidableEq, Repr

/-- One row of the written `<ticker>_strike_buckets_summary.csv`. -/
structure OutRow where
  ticker : String
  lower : ℚ
  upper : ℚ
  max_tenor_for_strike : Option ℚ
deriving DecidableEq, Repr

/-- The `pd.to_numeric(..., errors="coerce")` calls followed by
`df.dropna(subset=["relative_strike", "max_tenor_for_strike"])`: the
`(relative_strike, max_tenor_for_strike)` pairs that survive, in order. -/
def cleanAggRows (rows : List AggRow) : List (ℚ × ℚ) :=
  rows.filterMap fun r =>
    match cellToNumeric r.relative_strike, cellToNumeric r.max_tenor_for_strike with
    | some a, some b => some (a, b)
    | _, _ => none

/-- The mask `(df["relative_strike"] >= lower) & (df["relative_strike"] < upper)`
(`aggregate_strike_buckets.py:167`). -/
def bucketMask (b : Bucket) (p : ℚ × ℚ) : Bool :=
  decide (b.lower ≤ p.1) && decide (p.1 < b.upper)

/-- `aggregate_for_ticker` (`aggregate_strike_buckets.py:92`): `none` models
the early `return`s (missing directory, missing input file, missing required
column, or no rows left after cleaning) where no summary is written; `some`
is the summary table written, one row per configured bucket in configuration
order with `max(max_tenor_for_strike)` over the bucket (`None` when the
bucket is empty). -/
def aggregate_for_ticker (ticker : String) (fs : AggTickerFS) (buckets : List Bucket) :
    Option (List OutRow) :=
  if !fs.dirExists then none
  else
    match fs.file with
    | none => none
    | some f =>
        if !f.hasRelativeStrikeCol || !f.hasMaxTenorCol then none
        else
          let clean := cleanAggRows f.rows
          if clean.isEmpty then none
          else
            some (buckets.map fun b =>
              { ticker := ticker, lower := b.lower, upper := b.upper,
                max_tenor_for_strike := listMax ((clean.filter (bucketMask b)).map Prod.snd) })

/-- The strike-bucket configuration file as found on disk: absent, or the
parsed `strike_buckets` list (absent key and empty list both yield `[]`,
which the script rejects). -/
inductive BucketsCfg where
  | fileMissing : BucketsCfg
  | content (buckets : List Bucket) : BucketsCfg
deriving DecidableEq, Repr

/-- The exceptions `load_strike_buckets` can raise. -/
inductive AggError where
  | fileNotFoundError : AggError
  | valueError : AggError
deriving DecidableEq, Repr

/-- `load_strike_buckets` (`aggregate_strike_buckets.py:54`): raises
`FileNotFoundError` when the config file is absent and `ValueError` when
`strike_buckets` is missing or empty. -/
def load_strike_buckets : BucketsCfg → Except AggError (List Bucket)
  | .fileMissing => .error .fileNotFoundError
  | .content [] => .error .valueError
  | .content (b :: bs) => .ok (b :: bs)

/-- `run` (`aggregate_strike_buckets.py:206`): returns early (no error) when
no tickers are configured or the output directory is missing; otherwise
loads the bucket configuration — any exception there aborts before the
ticker loop — and then aggregates every ticker independently.  The result
records, per ticker in order, the summary written (or `none` when that
ticker was skipped). -/
def run (tickers : List (String × AggTickerFS)) (outdirExists : Bool) (cfg : BucketsCfg) :
    Except AggError (List (String × Option (List OutRow))) :=
  if tickers.isEmpty then .ok []
  else if !outdirExists then .ok []
  else
    match load_strike_buckets cfg with
    | .error e => .error e
    | .ok buckets =>
        .ok (tickers.map fun tf => (tf.1, aggregate_for_ticker tf.1 tf.2 buckets))

end aggregate_strike_buckets

/-! ## Per-strike maximum reducer (`add_max_tenor.py`) -/

namespace add_max_tenor

/-- One row of a per-ticker CSV, restricted to the two columns the script
uses (numeric after `pd.read_csv` type inference; `none` = NaN). -/
structure MTRow where
  strike : Option ℚ
  tenor_days : Option ℚ
deriving DecidableEq, Repr

/-- A per-ticker CSV file: which of the two required columns are present,
and the rows in file order. -/
structure MTFile where
  hasTenorDaysCol : Bool
  hasStrikeCol : Bool
  rows : List MTRow
deriving DecidableEq, Repr

/-- `df.groupby("strike")["tenor_days"].transform("max")` on one row: rows
with a NaN strike key are not grouped and get NaN; otherwise the maximum of
the non-NaN `tenor_days` among rows with the same strike (NaN if there are
none). -/
def groupMax (rows : List MTRow) (r : MTRow) : Option ℚ :=
  match r.strike with
  | none => none
  | some s => listMax (rows.filterMap fun r2 => if r2.strike = some s then r2.tenor_days else none)

/-- `calculate_max_tenor` (`add_max_tenor.py:39`): `none` models the early
`return`s when a required column is missing (file untouched); otherwise the
rewritten file, each row paired with its new `max_tenor_for_strike` value. -/
def calculate_max_tenor (f : MTFile) : Option (List (MTRow × Option ℚ)) :=
  if !f.hasTenorDaysCol then none
  else if !f.hasStrikeCol then none
  else some (f.rows.map fun r => (r, groupMax f.rows r))

end add_max_tenor

/-! ## Relative-strike enricher (`add_relative_strike.py`)

Division of a pandas float column by a scalar follows IEEE semantics, so a
zero `spot_price` produces infinities rather than an exception; `PVal` makes
those representable. -/

/-- A pandas float value: finite, `+inf`, `-inf`, or NaN. -/
inductive PVal where
  | num (q : ℚ) : PVal
  | inf : PVal
  | ninf : PVal
  | nan : PVal
deriving DecidableEq, Repr

/-- IEEE division of finite `a` by finite `b` as pandas performs it on a
float column: finite quotient for `b ≠ 0`, signed infinity or NaN for
`b = 0`. -/
def pdiv (a b : ℚ) : PVal :=
  if b ≠ 0 then .num (a / b)
  else if 0 < a then .inf
  else if a < 0 then .ninf
  else .nan

/-- `Series.abs()` on one value. -/
def pabs : PVal → PVal
  | .num q => .num |q|
  | .inf => .inf
  | .ninf => .inf
  | .nan => .nan

/-- Multiplication by the finite constant `100.0`. -/
def pmul100 : PVal → PVal
  | .num q => .num (q * 100)
  | .inf => .inf
  | .ninf => .ninf
  | .nan => .nan

namespace add_relative_strike

/-- `(df["strike"] / df["spot_price"]).abs() * 100.0` on one row
(`add_relative_strike.py:64`); a NaN strike stays NaN. -/
def relativeStrikeOf (strike : Option ℚ) (spot_price : ℚ) : PVal :=
  match strike with
  | none => .nan
  | some k => pmul100 (pabs (pdiv k spot_price))

/-- One per-ticker CSV file: whether the `strike` column is present, and the
strike column values in row order. -/
structure RelFile where
  hasStrikeCol : Bool
  strikes : List (Option ℚ)
deriving DecidableEq, Repr

/-- `add_relative_strike_to_file` (`add_relative_strike.py:46`): `none`
models the early `return` when the `strike` column is missing (file
untouched); `some` is the `relative_strike` column written back (the file is
overwritten). -/
def add_relative_strike_to_file (f : RelFile) (spot_price : ℚ) : Option (List PVal) :=
  if !f.hasStrikeCol then none
  else some (f.strikes.map fun k => relativeStrikeOf k spot_price)

/-- A ticker as `run` sees it: its name, whether `outdir/<ticker>` exists,
its CSV files, and the outcome of `resolve_spot_price_for_ticker` (`.error`
models an exception from the spot-price lookup, the only case the
`try/except` around it catches). -/
structure RelTicker where
  name : String
  dirExists : Bool
  csvFiles : List RelFile
  resolveSpot : Except Unit ℚ
deriving Repr

/-- The body of the per-ticker loop in `run`
(`add_relative_strike.py:149-179`): the ticker is skipped (`none`) when its
directory is missing, it has no CSV files, or spot-price resolution raises;
otherwise every CSV file is enriched with the resolved spot price. -/
def runTicker (t : RelTicker) : Option (List (Option (List PVal))) :=
  if !t.dirExists then none
  else if t.csvFiles.isEmpty then none
  else
    match t.resolveSpot with
    | .error _ => none
    | .ok spot => some (t.csvFiles.map fun f => add_relative_strike_to_file f spot)

/-- `run`'s ticker loop: every ticker is visited, in order, independently. -/
def run (tickers : List RelTicker) : List (String × Option (List (Option (List PVal)))) :=
  tickers.map fun t => (t.name, runTicker t)

end add_relative_strike

/-! ## Basket variant (`basket_portfolio_add_fair_value_from_buckets.py`) -/

namespace basket_portfolio

/-- `parse_list_field` (`basket_portfolio...py:36`): `[]` for a missing
value, else the comma-separated parts, stripped, empty parts dropped. -/
def parse_list_field (value : Option String) : List String :=
  match value with
  | none => []
  | some s =>
      (splitOnChar ',' s.data).filterMap fun cs =>
        let t := trimChars cs
        if t.isEmpty then none else some (String.mk t)

/-- `parse_bucket_midpoint` (`basket_portfolio...py:91`): strip the label,
require a `-`, split on the first one, parse both parts with `float(...)`
and return their arithmetic midpoint; any failure yields `None` (the
`try/except`). -/
def parse_bucket_midpoint (bucket : Option String) : Option ℚ :=
  match bucket with
  | none => none
  | some s =>
      match splitFirst '-' (trimChars s.data) with
      | none => none
      | some p =>
          match pythonFloatChars p.1, pythonFloatChars p.2 with
          | some lo, some hi => some ((lo + hi) / 2)
          | _, _ => none

/-- `load_summary` (`basket_portfolio...py:56`): same behaviour as
`load_summary_for` in `add_fair_value_from_buckets.py` (absent file or
missing required column gives `None`, else the numerically coerced rows);
the per-run cache only memoises this pure lookup.  `fs` maps a ticker to its
summary file on disk. -/
def load_summary (fs : String → SummaryFile) (t : String) : Option (List SummaryRow) :=
  load_summary_for (fs t)

/-- `str(int(max_tenor)) if float(max_tenor).is_integer() else str(max_tenor)`
(`basket_portfolio...py:151`).  Integral values print as integers; the
non-integral branch abstracts Python float formatting (no claim exercises
it) as the rational's own string form. -/
def fmtNum (q : ℚ) : String :=
  if q.den = 1 then toString q.num
  else toString q

/-- One row of a basket portfolio CSV after `compute_tenor_days`:
`baskettickers` and `strike_bucket` as read (string or missing), and
`tenor_days = (expiry - trade_date).days` (`none` when either date was
unparsable). -/
structure BasketRow where
  baskettickers : Option String
  strike_bucket : Option String
  tenor_days : Option ℚ
deriving Repr

/-- The body of the `for t in tickers` loop in `per_row`
(`basket_portfolio...py:127-152`): the pair
`(max_tenor entry, fair_value entry)` appended for one ticker.  Both entries
are empty when the bucket midpoint or `tenor_days` is missing, the ticker's
summary is unavailable, no bucket row matches, or the matched statistic is
NaN; otherwise the first matching row's statistic and the label `"2"` when
`tenor_days <= max_tenor` else `"3"`. -/
def per_ticker (fs : String → SummaryFile) (rel : Option ℚ) (tenor_days : Option ℚ)
    (t : String) : String × String :=
  match rel, tenor_days with
  | some r, some td =>
      match load_summary fs t with
      | none => ("", "")
      | some rows =>
          match matchRows rows r with
          | [] => ("", "")
          | m :: _ =>
              match m.max_tenor_for_strike with
              | none => ("", "")
              | some mt => (fmtNum mt, if td ≤ mt then "2" else "3")
  | _, _ => ("", "")

/-- `per_row` (`basket_portfolio...py:116`): resolve every ticker of the
basket independently and comma-join the two entry lists in input order. -/
def per_row (fs : String → SummaryFile) (row : BasketRow) : String × String :=
  let tickers := parse_list_field row.baskettickers
  if tickers.isEmpty then ("", "")
  else
    let rel := parse_bucket_midpoint row.strike_bucket
    let pairs := tickers.map (per_ticker fs rel row.tenor_days)
    (String.intercalate "," (pairs.map Prod.fst),
     String.intercalate "," (pairs.map Prod.snd))

end basket_portfolio

/-! ## Helper lemmas -/

theorem intercalate_nil (s : String) : String.intercalate s [] = "" := rfl

theorem mem_matchRows {rows : List SummaryRow} {rel : ℚ} {r : SummaryRow} :
    r ∈ matchRows rows rel ↔ r ∈ rows ∧ specBucketSelects rel r := by
  simp only [matchRows, List.mem_filter, bucketMatches, specBucketSelects]
  constructor
  · rintro ⟨hr, hb⟩
    rcases hl : r.lower with _ | l <;> rcases hu : r.upper with _ | u <;>
      simp [hl, hu] at hb
    · exact ⟨hr, l, u, rfl, rfl, hb.1, hb.2⟩
  · rintro ⟨hr, l, u, hl, hu, h1, h2⟩
    refine ⟨hr, ?_⟩
    simp [hl, hu, h1, h2]

theorem listMax_eq_none_iff {l : List ℚ} : listMax l = none ↔ l = [] := by
  cases l with
  | nil => simp [listMax]
  | cons x xs =>
      simp only [listMax]
      cases listMax xs <;> simp

theorem listMax_mem {l : List ℚ} {m : ℚ} (h : listMax l = some m) : m ∈ l := by
  induction l generalizing m with
  | nil => simp [listMax] at h
  | cons x xs ih =>
      simp only [listMax] at h
      cases hx : listMax xs with
      | none =>
          rw [hx] at h
          simp at h
          simp [h]
      | some m2 =>
          rw [hx] at h
          simp at h
          rcases max_choice x m2 with hc | hc <;> rw [hc] at h
          · simp [h]
          · exact List.mem_cons_of_mem _ (h ▸ ih hx)

theorem le_listMax {l : List ℚ} {x : ℚ} (hx : x ∈ l) :
    ∃ m, listMax l = some m ∧ x ≤ m := by
  induction l with
  | nil => simp at hx
  | cons y ys ih =>
      rcases List.mem_cons.mp hx with h | h
      · subst h
        cases hy : listMax ys with
        | none => exact ⟨x, by simp [listMax, hy], le_refl x⟩
        | some m2 => exact ⟨max x m2, by simp [listMax, hy], le_max_left x m2⟩
      · rcases ih h with ⟨m, hm, hxm⟩
        cases hy : listMax ys with
        | none => rw [hy] at hm; exact absurd hm (by simp)
        | some m2 =>
            rw [hy] at hm
            refine ⟨max y m2, by simp [listMax, hy], ?_⟩
            exact le_trans hxm (by simp at hm; rw [hm]; exact le_max_right y m)

/-! ## Claim theorems -/

/-- C1: for every parsed portfolio relative strike `rel` and every summary
table, exactly the summary rows with `lower <= rel` and `rel < upper` are
selected (a `rel` of exactly 25 with buckets `[0,25)` and `[25,50)` matches
`[25,50)`, not `[0,25)`), and whenever more than one row matches, the
statistic of the first matching row in file order is returned. -/
theorem bucket_match_selects_halfopen_and_first_wins
    (raws : List RawSummaryRow) (cell : Cell) (rel : ℚ)
    (hcell : parse_relative_strike cell = .ok (some rel)) :
    (∀ r, r ∈ matchRows (raws.map coerceSummaryRow) rel ↔
        r ∈ raws.map coerceSummaryRow ∧ specBucketSelects rel r) ∧
    compute_fair_value (.table raws) cell =
      .ok (match matchRows (raws.map coerceSummaryRow) rel with
            | [] => none
            | m :: _ => m.max_tenor_for_strike) ∧
    matchRows [⟨some 0, some 25, some 3⟩, ⟨some 25, some 50, some 7⟩] 25 =
      [⟨some 25, some 50, some 7⟩] := by
  refine ⟨fun r => mem_matchRows, ?_, by with_unfolding_all decide⟩
  simp only [compute_fair_value, load_summary_for, hcell]
  cases matchRows (raws.map coerceSummaryRow) rel <;> rfl

/-- Witness for C1: a relative strike of exactly 25 against the buckets
`[0,25)` and `[25,50)` is assigned the `[25,50)` bucket's statistic. -/
theorem bucket_match_selects_halfopen_and_first_wins_witness :
    compute_fair_value (.table [⟨.num 0, .num 25, .num 3⟩, ⟨.num 25, .num 50, .num 7⟩])
      (.num 25) = .ok (some 7) := by
  have h := bucket_match_selects_halfopen_and_first_wins
    [⟨.num 0, .num 25, .num 3⟩, ⟨.num 25, .num 50, .num 7⟩] (.num 25) 25
    (by with_unfolding_all decide)
  rw [h.2.1]
  with_unfolding_all decide

/-- C3 counterexample: a present but non-numeric relative-strike string makes
`parse_relative_strike` raise `ValueError`, which escapes
`compute_fair_value` (the claim says the result would be NaN with no
exception escaping). -/
theorem fair_value_unparsable_string_raises :
    compute_fair_value (.table [⟨.num 0, .num 100, .num 45⟩]) (.str "abc") = .error () := by
  with_unfolding_all decide

/-- C3 (amended): if zero summary rows match, or the ticker's summary file is
absent or malformed (missing required columns), or the row's relative-strike
input is a missing value (NaN), the computed fair value is NaN and no
exception escapes; but a present, non-numeric relative-strike string raises
`ValueError`, which does escape the per-row computation. -/
theorem fair_value_nan_cases_no_abort (file : SummaryFile) (cell : Cell) :
    (load_summary_for file = none → compute_fair_value file cell = .ok none) ∧
    (compute_fair_value .missing cell = .ok none) ∧
    (compute_fair_value .malformed cell = .ok none) ∧
    (cell = .na → compute_fair_value file cell = .ok none) ∧
    (∀ rows rel, load_summary_for file = some rows →
        parse_relative_strike cell = .ok (some rel) → matchRows rows rel = [] →
        compute_fair_value file cell = .ok none) ∧
    (∀ e, parse_relative_strike cell = .error e →
        ∀ rows, load_summary_for file = some rows → compute_fair_value file cell = .error e) := by
  refine ⟨?_, rfl, rfl, ?_, ?_, ?_⟩
  · intro h
    simp only [compute_fair_value, h]
  · intro h
    subst h
    cases hl : load_summary_for file <;>
      simp only [compute_fair_value, hl, parse_relative_strike]
  · intro rows rel h1 h2 h3
    simp only [compute_fair_value, h1, h2, h3]
  · intro e he rows hl
    simp only [compute_fair_value, hl, he]

/-- Witness for C3 (amended): the missing-summary, NaN-input and
zero-matches cases each produce NaN at concrete inputs. -/
theorem fair_value_nan_cases_no_abort_witness :
    compute_fair_value .missing (.num 10) = .ok none ∧
    compute_fair_value (.table [⟨.num 0, .num 25, .num 3⟩]) .na = .ok none ∧
    compute_fair_value (.table [⟨.num 0, .num 25, .num 3⟩]) (.num 30) = .ok none := by
  refine ⟨(fair_value_nan_cases_no_abort .missing (.num 10)).1 rfl,
    (fair_value_nan_cases_no_abort (.table [⟨.num 0, .num 25, .num 3⟩]) .na).2.2.2.1 rfl,
    (fair_value_nan_cases_no_abort (.table [⟨.num 0, .num 25, .num 3⟩]) (.num 30)).2.2.2.2.1
      [⟨some 0, some 25, some 3⟩] 30 (by with_unfolding_all decide)
      (by with_unfolding_all decide) (by with_unfolding_all decide)⟩

/-- The pandas mask in the aggregator as a proposition. -/
theorem bucketMask_iff {b : aggregate_strike_buckets.Bucket} {p : ℚ × ℚ} :
    aggregate_strike_buckets.bucketMask b p = true ↔ b.lower ≤ p.1 ∧ p.1 < b.upper := by
  simp [aggregate_strike_buckets.bucketMask]

/-- C2 counterexample: an input file that has both required columns but whose
only row has a NaN `relative_strike` makes `aggregate_for_ticker` return
without writing any summary — the configured bucket's row is omitted rather
than emitted with a null statistic. -/
theorem aggregate_all_nan_writes_no_summary :
    aggregate_strike_buckets.aggregate_for_ticker "ABC"
      ⟨true, some ⟨true, true, [⟨.na, .num 5⟩]⟩⟩ [⟨0, 10⟩] = none := by
  with_unfolding_all decide

/-- C2 (amended): on a ticker's input file with the required columns, in any
run where at least one row survives numeric coercion and NaN-dropping, the
written summary contains exactly one row per configured bucket in the
configuration's bucket order; a bucket into which no surviving row's
`relative_strike` falls gets a null statistic (its row is not omitted), and
each surviving row with `relative_strike` in `[lower, upper)` contributes to
that bucket's maximum of `max_tenor_for_strike` (the statistic bounds every
such row's value and is attained by one of them).  When no row survives
cleaning, no summary is written at all. -/
theorem aggregate_one_row_per_bucket_when_clean_nonempty
    (ticker : String) (f : aggregate_strike_buckets.AggFile)
    (buckets : List aggregate_strike_buckets.Bucket)
    (h1 : f.hasRelativeStrikeCol = true) (h2 : f.hasMaxTenorCol = true)
    (h3 : aggregate_strike_buckets.cleanAggRows f.rows ≠ []) :
    ∃ out, aggregate_strike_buckets.aggregate_for_ticker ticker ⟨true, some f⟩ buckets = some out ∧
      out.length = buckets.length ∧
      (∀ i (hi : i < buckets.length) (hi2 : i < out.length),
        out.get ⟨i, hi2⟩ =
          { ticker := ticker, lower := (buckets.get ⟨i, hi⟩).lower,
            upper := (buckets.get ⟨i, hi⟩).upper,
            max_tenor_for_strike :=
              listMax (((aggregate_strike_buckets.cleanAggRows f.rows).filter
                (aggregate_strike_buckets.bucketMask (buckets.get ⟨i, hi⟩))).map Prod.snd) }) ∧
      (∀ b : aggregate_strike_buckets.Bucket,
        ((∀ p ∈ aggregate_strike_buckets.cleanAggRows f.rows,
            ¬(b.lower ≤ p.1 ∧ p.1 < b.upper)) →
          listMax (((aggregate_strike_buckets.cleanAggRows f.rows).filter
            (aggregate_strike_buckets.bucketMask b)).map Prod.snd) = none) ∧
        (∀ p ∈ aggregate_strike_buckets.cleanAggRows f.rows,
            b.lower ≤ p.1 → p.1 < b.upper →
          ∃ m, listMax (((aggregate_strike_buckets.cleanAggRows f.rows).filter
              (aggregate_strike_buckets.bucketMask b)).map Prod.snd) = some m ∧ p.2 ≤ m) ∧
        (∀ m, listMax (((aggregate_strike_buckets.cleanAggRows f.rows).filter
              (aggregate_strike_buckets.bucketMask b)).map Prod.snd) = some m →
          ∃ p, p ∈ aggregate_strike_buckets.cleanAggRows f.rows ∧
            b.lower ≤ p.1 ∧ p.1 < b.upper ∧ p.2 = m)) := by
  have hempty : (aggregate_strike_buckets.cleanAggRows f.rows).isEmpty = false := by
    cases hc : aggregate_strike_buckets.cleanAggRows f.rows with
    | nil => exact absurd hc h3
    | cons a l => rfl
  refine ⟨buckets.map (fun b =>
      { ticker := ticker, lower := b.lower, upper := b.upper,
        max_tenor_for_strike :=
          listMax (((aggregate_strike_buckets.cleanAggRows f.rows).filter
            (aggregate_strike_buckets.bucketMask b)).map Prod.snd) }), ?_, by simp, ?_, ?_⟩
  · simp only [aggregate_strike_buckets.aggregate_for_ticker, h1, h2, hempty]
    rfl
  · intro i hi hi2
    simp [List.getElem_map]
  · intro b
    refine ⟨?_, ?_, ?_⟩
    · intro hnone
      rw [listMax_eq_none_iff, List.map_eq_nil_iff, List.filter_eq_nil_iff]
      intro p hp
      intro hmask
      exact hnone p hp (bucketMask_iff.mp hmask)
    · intro p hp hlo hhi
      have hmem : p.2 ∈ ((aggregate_strike_buckets.cleanAggRows f.rows).filter
          (aggregate_strike_buckets.bucketMask b)).map Prod.snd :=
        List.mem_map.mpr ⟨p, List.mem_filter.mpr ⟨hp, bucketMask_iff.mpr ⟨hlo, hhi⟩⟩, rfl⟩
      exact le_listMax hmem
    · intro m hm
      rcases List.mem_map.mp (listMax_mem hm) with ⟨p, hpf, hpm⟩
      rcases List.mem_filter.mp hpf with ⟨hpc, hpb⟩
      rcases bucketMask_iff.mp hpb with ⟨hlo, hhi⟩
      exact ⟨p, hpc, hlo, hhi, hpm⟩

/-- Witness for C2 (amended): one surviving row with relative strike 22 and
max tenor 45, buckets `[0,20)` and `[20,30)` — the first bucket's row is
emitted with a null statistic, the second carries 45. -/
theorem aggregate_one_row_per_bucket_witness :
    aggregate_strike_buckets.aggregate_for_ticker "ABC"
      ⟨true, some ⟨true, true, [⟨.num 22, .num 45⟩]⟩⟩ [⟨0, 20⟩, ⟨20, 30⟩] =
      some [⟨"ABC", 0, 20, none⟩, ⟨"ABC", 20, 30, some 45⟩] := by
  obtain ⟨out, hout, hlen, hidx, hsem⟩ :=
    aggregate_one_row_per_bucket_when_clean_nonempty "ABC"
      ⟨true, true, [⟨.num 22, .num 45⟩]⟩ [⟨0, 20⟩, ⟨20, 30⟩] rfl rfl
      (by with_unfolding_all decide)
  with_unfolding_all decide

/-- C9: in an aggregator run that reaches ticker processing (some tickers
configured and the output directory present), a missing strike-bucket
configuration file raises `FileNotFoundError` and a present-but-empty bucket
list raises `ValueError`, each aborting the run before any ticker is
processed (the run produces no per-ticker output); with a valid
configuration every configured ticker is handled independently, and a
missing ticker directory or missing input file makes only that ticker's
aggregation a no-op (summary not written) without affecting the others. -/
theorem bucket_config_fatal_ticker_errors_skipped
    (tickers : List (String × aggregate_strike_buckets.AggTickerFS)) (h : tickers ≠ []) :
    (aggregate_strike_buckets.run tickers true .fileMissing =
        .error .fileNotFoundError) ∧
    (aggregate_strike_buckets.run tickers true (.content []) = .error .valueError) ∧
    (∀ b bs, aggregate_strike_buckets.run tickers true (.content (b :: bs)) =
        .ok (tickers.map fun tf =>
          (tf.1, aggregate_strike_buckets.aggregate_for_ticker tf.1 tf.2 (b :: bs)))) ∧
    (∀ nm fs bs2, fs.dirExists = false →
        aggregate_strike_buckets.aggregate_for_ticker nm fs bs2 = none) ∧
    (∀ nm d bs2, aggregate_strike_buckets.aggregate_for_ticker nm ⟨d, none⟩ bs2 = none) := by
  have hne : tickers.isEmpty = false := by
    cases tickers with
    | nil => exact absurd rfl h
    | cons a l => rfl
  refine ⟨?_, ?_, ?_, ?_, ?_⟩
  · simp [aggregate_strike_buckets.run, hne, aggregate_strike_buckets.load_strike_buckets]
  · simp [aggregate_strike_buckets.run, hne, aggregate_strike_buckets.load_strike_buckets]
  · intro b bs
    simp [aggregate_strike_buckets.run, hne, aggregate_strike_buckets.load_strike_buckets]
  · intro nm fs bs2 hdir
    simp [aggregate_strike_buckets.aggregate_for_ticker, hdir]
  · intro nm d bs2
    cases d <;> simp [aggregate_strike_buckets.aggregate_for_ticker]

/-- Witness for C9: two tickers, the first with a missing directory and the
second with a good file — the missing config aborts, and with a good config
the first ticker is skipped while the second still gets its summary. -/
theorem bucket_config_fatal_ticker_errors_skipped_witness :
    (aggregate_strike_buckets.run
        [("A", ⟨false, none⟩), ("B", ⟨true, some ⟨true, true, [⟨.num 5, .num 9⟩]⟩⟩)]
        true .fileMissing = .error .fileNotFoundError) ∧
    (aggregate_strike_buckets.run
        [("A", ⟨false, none⟩), ("B", ⟨true, some ⟨true, true, [⟨.num 5, .num 9⟩]⟩⟩)]
        true (.content [⟨0, 10⟩]) =
      .ok [("A", none), ("B", some [⟨"B", 0, 10, some 9⟩])]) := by
  have h := bucket_config_fatal_ticker_errors_skipped
    [("A", ⟨false, none⟩), ("B", ⟨true, some ⟨true, true, [⟨.num 5, .num 9⟩]⟩⟩)]
    (by with_unfolding_all decide)
  refine ⟨h.1, ?_⟩
  rw [h.2.2.1 ⟨0, 10⟩ []]
  with_unfolding_all decide

/-- C4: on every input table with `strike` and `tenor_days` columns, every
row is assigned `max_tenor_for_strike` equal to the maximum `tenor_days`
among rows sharing its exact strike value (the statistic bounds every such
row's tenor and is attained by one of them); the row count is preserved (a
windowed maximum, not a collapse); and re-running the operation on its own
output yields the same output. -/
theorem max_tenor_windowed_max_rowcount_idempotent
    (f : add_max_tenor.MTFile) (hT : f.hasTenorDaysCol = true) (hS : f.hasStrikeCol = true) :
    ∃ out, add_max_tenor.calculate_max_tenor f = some out ∧
      out.length = f.rows.length ∧
      out.map Prod.fst = f.rows ∧
      (∀ i (hi : i < f.rows.length) (hi2 : i < out.length),
        out.get ⟨i, hi2⟩ =
          (f.rows.get ⟨i, hi⟩, add_max_tenor.groupMax f.rows (f.rows.get ⟨i, hi⟩))) ∧
      (∀ r ∈ f.rows, ∀ s, r.strike = some s →
        (∀ r2 ∈ f.rows, r2.strike = some s → ∀ td, r2.tenor_days = some td →
          ∃ m, add_max_tenor.groupMax f.rows r = some m ∧ td ≤ m) ∧
        (∀ m, add_max_tenor.groupMax f.rows r = some m →
          ∃ r2 ∈ f.rows, r2.strike = some s ∧ r2.tenor_days = some m)) ∧
      add_max_tenor.calculate_max_tenor ⟨true, true, out.map Prod.fst⟩ = some out := by
  refine ⟨f.rows.map fun r => (r, add_max_tenor.groupMax f.rows r), ?_, by simp, ?_, ?_, ?_, ?_⟩
  · simp only [add_max_tenor.calculate_max_tenor, hT, hS]
    rfl
  · rw [List.map_map]
    exact List.map_id f.rows
  · intro i hi hi2
    simp [List.getElem_map]
  · intro r hr s hrs
    constructor
    · intro r2 hr2 hr2s td htd
      have hmem : td ∈ f.rows.filterMap fun r3 =>
          if r3.strike = some s then r3.tenor_days else none :=
        List.mem_filterMap.mpr ⟨r2, hr2, by rw [if_pos hr2s]; exact htd⟩
      rcases le_listMax hmem with ⟨m, hm, hle⟩
      exact ⟨m, by simp [add_max_tenor.groupMax, hrs, hm], hle⟩
    · intro m hm
      rw [add_max_tenor.groupMax, hrs] at hm
      rcases List.mem_filterMap.mp (listMax_mem hm) with ⟨r2, hr2, hif⟩
      by_cases h2s : r2.strike = some s
      · exact ⟨r2, hr2, h2s, by rwa [if_pos h2s] at hif⟩
      · rw [if_neg h2s] at hif
        exact absurd hif (by simp)
  · have hfst : (f.rows.map fun r => (r, add_max_tenor.groupMax f.rows r)).map Prod.fst
        = f.rows := by
      rw [List.map_map]
      exact List.map_id f.rows
    rw [hfst]
    rfl

/-- Witness for C4: the spec's round-trip scenario — rows
`(strike=100, tenor=30)` and `(strike=100, tenor=10)` both get
`max_tenor_for_strike = 30`. -/
theorem max_tenor_windowed_max_witness :
    add_max_tenor.calculate_max_tenor
        ⟨true, true, [⟨some 100, some 30⟩, ⟨some 100, some 10⟩]⟩ =
      some [(⟨some 100, some 30⟩, some 30), (⟨some 100, some 10⟩, some 30)] := by
  obtain ⟨out, hout, -⟩ := max_tenor_windowed_max_rowcount_idempotent
    ⟨true, true, [⟨some 100, some 30⟩, ⟨some 100, some 10⟩]⟩ rfl rfl
  with_unfolding_all decide

/-- C5: with a nonzero spot price, the enricher writes, for each row with a
numeric strike, `relative_strike = |strike / spot_price| * 100` exactly, and
the value computed at a position depends only on the strike at that position
(independence of row order). -/
theorem relative_strike_formula_order_independent
    (f : add_relative_strike.RelFile) (spot : ℚ) (hs : spot ≠ 0)
    (hcol : f.hasStrikeCol = true) :
    (add_relative_strike.add_relative_strike_to_file f spot =
      some (f.strikes.map fun k => add_relative_strike.relativeStrikeOf k spot)) ∧
    (∀ k : ℚ, add_relative_strike.relativeStrikeOf (some k) spot = .num (|k / spot| * 100)) ∧
    (∀ (l₁ l₂ : List (Option ℚ)) (i j : ℕ), l₁[i]? = l₂[j]? →
      (l₁.map fun k => add_relative_strike.relativeStrikeOf k spot)[i]? =
        (l₂.map fun k => add_relative_strike.relativeStrikeOf k spot)[j]?) := by
  refine ⟨?_, ?_, ?_⟩
  · simp [add_relative_strike.add_relative_strike_to_file, hcol]
  · intro k
    simp [add_relative_strike.relativeStrikeOf, pdiv, pabs, pmul100, hs]
  · intro l₁ l₂ i j hij
    simp only [List.getElem?_map, hij]

/-- Witness for C5: spot price 2 and strikes `[-1, NaN]` yield
`relative_strike = [50, NaN]`. -/
theorem relative_strike_formula_witness :
    add_relative_strike.add_relative_strike_to_file ⟨true, [some (-1), none]⟩ 2 =
      some [.num 50, .nan] := by
  obtain ⟨h1, h2, -⟩ := relative_strike_formula_order_independent
    ⟨true, [some (-1), none]⟩ 2 (by norm_num) rfl
  rw [h1]
  with_unfolding_all decide

/-- C6 counterexample: a resolved spot price of exactly 0 does not make the
enrichment fail or skip the file: the ticker is processed and the file is
overwritten, with an infinite `relative_strike` for a strike of 1 — not
skipped with no values written, as the claim states. -/
theorem zero_spot_price_file_still_written :
    add_relative_strike.runTicker ⟨"ABC", true, [⟨true, [some 1]⟩], .ok 0⟩ =
      some [some [.inf]] := by
  with_unfolding_all decide

/-- C6 (amended): a resolved spot price of 0 aborts nothing — the file is
still overwritten, each nonzero numeric strike getting an infinite
`relative_strike` (NaN for a zero or missing strike); a ticker is skipped
only when spot-price resolution itself raises an exception, and the ticker
loop always continues over the remaining tickers. -/
theorem zero_spot_price_writes_infinities_run_continues
    (f : add_relative_strike.RelFile) (hcol : f.hasStrikeCol = true)
    (ts : List add_relative_strike.RelTicker) (t : add_relative_strike.RelTicker) :
    (add_relative_strike.add_relative_strike_to_file f 0 =
      some (f.strikes.map fun k => add_relative_strike.relativeStrikeOf k 0)) ∧
    (∀ k : ℚ, add_relative_strike.relativeStrikeOf (some k) 0 =
      if k = 0 then .nan else .inf) ∧
    (add_relative_strike.relativeStrikeOf none 0 = .nan) ∧
    (∀ e, t.resolveSpot = .error e → add_relative_strike.runTicker t = none) ∧
    (add_relative_strike.run ts =
      ts.map fun t2 => (t2.name, add_relative_strike.runTicker t2)) := by
  refine ⟨?_, ?_, rfl, ?_, rfl⟩
  · simp [add_relative_strike.add_relative_strike_to_file, hcol]
  · intro k
    by_cases hk : k = 0
    · simp [add_relative_strike.relativeStrikeOf, pdiv, pabs, pmul100, hk]
    · rcases Ne.lt_or_lt hk with hlt | hlt <;>
        simp [add_relative_strike.relativeStrikeOf, pdiv, pabs, pmul100, hk,
          hlt, asymm hlt]
  · intro e he
    cases hd : t.dirExists <;> cases hc : t.csvFiles.isEmpty <;>
      simp [add_relative_strike.runTicker, hd, hc, he]

/-- Witness for C6 (amended): spot 0 over strikes `[1, 0, NaN]` writes
`[inf, NaN, NaN]`, and a ticker whose spot-price resolution raises is
skipped. -/
theorem zero_spot_price_writes_infinities_witness :
    (add_relative_strike.add_relative_strike_to_file ⟨true, [some 1, some 0, none]⟩ 0 =
      some [.inf, .nan, .nan]) ∧
    add_relative_strike.runTicker ⟨"X", true, [⟨true, [some 1]⟩], .error ()⟩ = none := by
  have h := zero_spot_price_writes_infinities_run_continues
    ⟨true, [some 1, some 0, none]⟩ rfl [] ⟨"X", true, [⟨true, [some 1]⟩], .error ()⟩
  refine ⟨?_, h.2.2.2.1 () rfl⟩
  rw [h.1]
  with_unfolding_all decide

/-- C7: in the basket variant the tickers of a row are resolved
independently and both outputs are comma-joined in input ticker order; a
failed lookup contributes an empty string at its position; a successful
lookup's fair-value label is `"2"` when `tenor_days <= matched max tenor`
and `"3"` otherwise, and empty when the bucket midpoint, `tenor_days`, the
summary, a matching row, or the matched statistic is missing.  Concretely,
`"ABC,DEF"` with `ABC` failing and `DEF` matching 45 yields `",45"` and
label `",2"`. -/
theorem basket_outputs_comma_joined_in_order
    (fs : String → SummaryFile) (row : basket_portfolio.BasketRow)
    (rel td : ℚ) (t : String) (rows : List SummaryRow) :
    (basket_portfolio.per_row fs row =
      (String.intercalate ","
        ((basket_portfolio.parse_list_field row.baskettickers).map fun tk =>
          (basket_portfolio.per_ticker fs
            (basket_portfolio.parse_bucket_midpoint row.strike_bucket) row.tenor_days tk).1),
       String.intercalate ","
        ((basket_portfolio.parse_list_field row.baskettickers).map fun tk =>
          (basket_portfolio.per_ticker fs
            (basket_portfolio.parse_bucket_midpoint row.strike_bucket) row.tenor_days tk).2))) ∧
    (basket_portfolio.load_summary fs t = none →
      basket_portfolio.per_ticker fs (some rel) (some td) t = ("", "")) ∧
    (basket_portfolio.load_summary fs t = some rows → matchRows rows rel = [] →
      basket_portfolio.per_ticker fs (some rel) (some td) t = ("", "")) ∧
    (∀ m ms mt, basket_portfolio.load_summary fs t = some rows →
      matchRows rows rel = m :: ms → m.max_tenor_for_strike = some mt →
      basket_portfolio.per_ticker fs (some rel) (some td) t =
        (basket_portfolio.fmtNum mt, if td ≤ mt then "2" else "3")) ∧
    basket_portfolio.per_row
        (fun tk => if tk = "DEF" then .table [⟨.num 20, .num 30, .num 45⟩] else .missing)
        ⟨some "ABC,DEF", some "20-30", some 30⟩ = (",45", ",2") := by
  refine ⟨?_, ?_, ?_, ?_, by with_unfolding_all decide⟩
  · cases htk : basket_portfolio.parse_list_field row.baskettickers with
    | nil => simp [basket_portfolio.per_row, htk, intercalate_nil]
    | cons a l =>
        simp [basket_portfolio.per_row, htk, List.map_map, Function.comp_def]
  · intro h
    simp [basket_portfolio.per_ticker, h]
  · intro h1 h2
    simp [basket_portfolio.per_ticker, h1, h2]
  · intro m ms mt h1 h2 h3
    simp [basket_portfolio.per_ticker, h1, h2, h3]

/-- Witness for C7: a lookup against a missing summary yields the empty
pair. -/
theorem basket_outputs_comma_joined_witness :
    basket_portfolio.per_ticker (fun _ => .missing) (some 25) (some 30) "ABC" = ("", "") := by
  have h := basket_outputs_comma_joined_in_order (fun _ => .missing)
    ⟨none, none, none⟩ 25 30 "ABC" []
  exact h.2.1 rfl

/-- C10: the basket variant turns a position's `strike_bucket` label into a
lookup value by splitting on the first `-` and taking the midpoint
`(lower + upper) / 2` of the two `float(...)`-parsed parts (`"20-30"` gives
25.0); a label without `-`, with a non-numeric part, or missing yields
`None`, and then every ticker position of that row gets empty outputs. -/
theorem bucket_midpoint_parsing
    (fs : String → SummaryFile) (row : basket_portfolio.BasketRow) (s : String)
    (lo hi : List Char) :
    (splitFirst '-' (trimChars s.data) = some (lo, hi) →
      basket_portfolio.parse_bucket_midpoint (some s) =
        match pythonFloatChars lo, pythonFloatChars hi with
        | some l, some h2 => some ((l + h2) / 2)
        | _, _ => none) ∧
    (splitFirst '-' (trimChars s.data) = none →
      basket_portfolio.parse_bucket_midpoint (some s) = none) ∧
    basket_portfolio.parse_bucket_midpoint none = none ∧
    basket_portfolio.parse_bucket_midpoint (some "20-30") = some 25 ∧
    basket_portfolio.parse_bucket_midpoint (some "2030") = none ∧
    basket_portfolio.parse_bucket_midpoint (some "a-b") = none ∧
    (basket_portfolio.parse_bucket_midpoint row.strike_bucket = none →
      basket_portfolio.per_row fs row =
        (String.intercalate ","
          (List.replicate (basket_portfolio.parse_list_field row.baskettickers).length ""),
         String.intercalate ","
          (List.replicate (basket_portfolio.parse_list_field row.baskettickers).length ""))) := by
  refine ⟨?_, ?_, rfl, by with_unfolding_all decide, by with_unfolding_all decide,
    by with_unfolding_all decide, ?_⟩
  · intro h
    simp [basket_portfolio.parse_bucket_midpoint, h]
  · intro h
    simp [basket_portfolio.parse_bucket_midpoint, h]
  · intro h
    cases htk : basket_portfolio.parse_list_field row.baskettickers with
    | nil => simp [basket_portfolio.per_row, htk, intercalate_nil]
    | cons a l =>
        have hone : ∀ tk, basket_portfolio.per_ticker fs none row.tenor_days tk = ("", "") := by
          intro tk
          cases row.tenor_days <;> rfl
        have hmap : ∀ (g : String × String → String) (l2 : List String),
            List.map (g ∘ basket_portfolio.per_ticker fs none row.tenor_days) l2 =
              List.replicate l2.length (g ("", "")) := by
          intro g l2
          induction l2 with
          | nil => rfl
          | cons b bs ih => simp [Function.comp_def, hone, List.replicate_succ, ih]
        simp [basket_portfolio.per_row, htk, h, hone, hmap, List.replicate_succ]

/-- Witness for C10: a row whose `strike_bucket` has no `-` produces empty
outputs for both of its basket tickers. -/
theorem bucket_midpoint_parsing_witness :
    basket_portfolio.per_row (fun _ => .missing) ⟨some "AB,CD", some "2030", some 30⟩ =
      (",", ",") := by
  have h := bucket_midpoint_parsing (fun _ => .missing)
    ⟨some "AB,CD", some "2030", some 30⟩ "2030" [] []
  rw [h.2.2.2.2.2.2 (by with_unfolding_all decide)]
  with_unfolding_all decide

/-- C8: the relative-strike parser accepts `.` and `,` as decimal separator
and strips `%`, so `"24,50%"` parses to 24.50; end to end, a portfolio row
with `relative_strike="24,50%"` against a summary with bucket `[20,30)` and
`max_tenor_for_strike=45` is assigned fair value 45, passed through
unchanged. -/
theorem percent_string_parsing_end_to_end :
    parse_relative_strike (.str "24,50%") = .ok (some (49/2)) ∧
    parse_relative_strike (.str "24.50%") = .ok (some (49/2)) ∧
    compute_fair_value (.table [⟨.num 20, .num 30, .num 45⟩]) (.str "24,50%") =
      .ok (some 45) := by
  refine ⟨?_, ?_, ?_⟩ <;> with_unfolding_all decide

end Stock
